import Mathlib

/-!
Verification development for the GuessIdioms plugin (`main.py`).

The Python source is shallowly embedded as executable Lean definitions:

* `GameRound` / `GameSession` mirror the two dataclasses (the diagnostic
  `start_time` fields, used by nothing, are omitted).
* The room table `self.game_sessions : Dict[str, GameSession]` is modelled as
  an insertion-ordered association list `Table`; `tableSet` has Python dict
  assignment semantics (replace in place, else append) and `tableErase`
  models `del`.
* `async` functions that merely compute (no suspension between a guard and
  its write) are modelled as pure functions.  In CPython asyncio, awaiting a
  coroutine that itself never awaits (such as `check_answer`) does not yield
  to the event loop, so each guarded mutation in the source is a single
  atomic step; concurrency claims are stated over interleavings of these
  atomic steps.
* External effects (chat sends, image sends, ledger writes, task spawns) are
  recorded as values of the `Msg` type.
* The idiom-provider HTTP response is abstracted as `ApiResponse`; the two
  `re.search` calls of the source are external-library behaviour and their
  results are carried as oracle fields of the response value.
-/

/-- Mirrors dataclass `GameRound` (main.py lines 37-46).  `start_time` is
diagnostic only and omitted.  `idiom` is `Optional[str]` in the source. -/
structure GameRound where
  image_url : String
  idiom : Option String
  hint_chars : List Char
  correct_user : Option String
  is_completed : Bool
  hint_count : Nat
deriving DecidableEq

/-- Mirrors dataclass `GameSession` (main.py lines 48-57).  `players` is an
insertion-ordered association list standing for the Python dict
`{wxid: score}`; `start_time` is diagnostic only and omitted. -/
structure GameSession where
  chatroom_id : String
  rounds : List GameRound
  current_round : Nat
  total_rounds : Nat
  active : Bool
  players : List (String × Nat)
deriving DecidableEq

/-- The room table `self.game_sessions`, an insertion-ordered dict. -/
abbrev Table : Type := List (String × GameSession)

/-- Configuration fields of the plugin that the embedded code reads, plus the
two external collaborators (nickname store, points ledger) as oracles. -/
structure Config where
  enable : Bool
  commands : List String
  rounds_per_game : Nat
  base_points : Int
  bonus_points : List Int
  nick : String → String
  ledgerOk : String → Int → Bool

/-- Observable external actions: chat text sends, image sends, at-mention
sends, ledger writes (`add_points`) and game-loop task spawns. -/
inductive Msg where
  | text (target content : String)
  | image (target : String)
  | atMsg (target content : String) (mentions : List String)
  | ledger (wxid : String) (points : Int)
  | spawn (room : String)
deriving DecidableEq

/-- Python dict assignment `t[k] = v`: replace the existing entry in place,
otherwise append. -/
def tableSet (t : Table) (k : String) (v : GameSession) : Table :=
  if (List.lookup k t).isSome then
    t.map (fun p => if p.1 = k then (p.1, v) else p)
  else
    t ++ [(k, v)]

/-- Python `del t[k]`. -/
def tableErase (t : Table) (k : String) : Table :=
  t.filter (fun p => decide (p.1 ≠ k))

/-- Truthiness of a Python `Optional[str]`: `None` and `""` are falsy. -/
def optStrFalsy : Option String → Bool
  | none => true
  | some s => decide (s = "")

/-- Python `f"{x}"` for `x : Optional[str]`: `None` prints as `"None"`. -/
def optStrRepr : Option String → String
  | none => "None"
  | some s => s

/-- Python `f"{x}"` for `x : Optional[int]`. -/
def optIntRepr : Option Int → String
  | none => "None"
  | some i => toString i

/-- Whether `sub` occurs as a contiguous run inside `s`
(Python `sub in s` on strings, by code point). -/
def containsSub (sub : List Char) : List Char → Bool
  | [] => decide (sub = [])
  | c :: rest => sub.isPrefixOf (c :: rest) || containsSub sub rest

/-- `GuessIdioms.check_answer` (main.py lines 540-543): plain `==` between
the guess (a `str`) and `game_round.idiom` (an `Optional[str]`); comparing a
string with `None` is `False` in Python. -/
def check_answer (user_guess : String) (correct_answer : Option String) : Bool :=
  match correct_answer with
  | none => false
  | some a => decide (user_guess = a)

/-!  ## Idiom provider client (`fetch_game_data`, main.py lines 588-671)

The HTTP exchange is abstracted: `ApiResponse.netError` is the outer
`except` (aiohttp failure), `http status body` a delivered response.  A body
either parsed as JSON (`jsonOk`, carrying the fields the code reads, with the
`答案...` regex result on `data.msg` as the oracle `msgAnswerMatch`), failed
JSON parsing (`jsonFail`, carrying the results of the two fallback regex
searches on the raw text), or raised while being read (`readError`, the
middle `except` at line 660). -/

inductive HttpBody where
  | jsonOk (code : Option Int) (rootMsg dataMsg pic dataAnswer rootAnswer : String)
      (msgAnswerMatch : Option String)
  | jsonFail (picMatch : Option String) (answerMatch : Option String)
  | readError (emsg : String)
deriving DecidableEq

inductive ApiResponse where
  | netError (emsg : String)
  | http (status : Nat) (body : HttpBody)
deriving DecidableEq

/-- `GuessIdioms.fetch_game_data` (main.py lines 588-671), as a function of
the provider's response.  Returns the source's 4-tuple
`(成功标志, 消息文本, 图片URL, 答案)`; the last two are `None` on failure. -/
def fetch_game_data (r : ApiResponse) : Bool × String × Option String × Option String :=
  match r with
  | .netError e => (false, "调用API异常: " ++ e, none, none)
  | .http status body =>
    if status = 200 then
      match body with
      | .jsonOk code rootMsg dataMsg pic dataAnswer rootAnswer msgAnswerMatch =>
        if code = some 200 then
          let msg := dataMsg
          let answer := dataAnswer
          let answer := if answer = "" then rootAnswer else answer
          let answer :=
            if answer = "" ∧ containsSub "答案".toList msg.toList = true then
              match msgAnswerMatch with
              | some a => a
              | none => answer
            else answer
          (true, msg, some pic, some answer)
        else
          (false, "API返回错误码: " ++ optIntRepr code ++ ", 消息: " ++ rootMsg, none, none)
      | .jsonFail picMatch answerMatch =>
        match picMatch with
        | some pic =>
          (true, "获取图片成功", some pic, some (answerMatch.getD ""))
        | none => (false, "无法解析API响应", none, none)
      | .readError e => (false, "解析API响应时出错: " ++ e, none, none)
    else
      (false, "API请求失败，状态码: " ++ toString status, none, none)

/-!  ## Round writers and the timeout watchdog -/

/-- The guarded write at the end of `GuessIdioms.handle_text`
(main.py lines 722-727): check `is_completed`, check the answer, then record
winner and completion together.  There is no suspension point between the
check and the write. -/
def answer_write (sender content : String) (r : GameRound) : GameRound :=
  if r.is_completed = false then
    if check_answer content r.idiom = true then
      { r with correct_user := some sender, is_completed := true }
    else r
  else r

/-- `GuessIdioms.round_timeout_timer` (main.py lines 482-502) at the moment
its sleep elapses: re-look up the session and round, and complete the round
with no winner only if it is still incomplete and the session active.  (The
source holds a reference to the round object across the sleep; the model
re-reads it from the table, which agrees whenever the session is still the
live one, as in every interleaving claimed.) -/
def round_timeout_timer (t : Table) (room : String) (round_idx : Nat) : Table :=
  match List.lookup room t with
  | none => t
  | some s =>
    match s.rounds[round_idx]? with
    | none => t
    | some r =>
      if r.is_completed = false ∧ s.active = true then
        tableSet t room
          { s with rounds := s.rounds.set round_idx { r with is_completed := true } }
      else t

/-!  ## Hint generator (`generate_hint`, main.py lines 504-538)

`random.choice(seq)` is modelled by an arbitrary index `pick`, read modulo
the sequence length, so quantifying over `pick` covers every possible draw.
The source appends the chosen character to the caller's `existing_hints`
list in place; the model returns the updated list as the first component.
The second component is the returned string (as a character list): `[]` for
the empty-string returns, otherwise the literal `"提示: "` marker followed by
the masked rendering. -/

/-- The masked rendering: every position whose character is in `revealed` is
shown, all others become the placeholder glyph. -/
def renderHint (idiom revealed : List Char) : List Char :=
  idiom.map (fun c => if c ∈ revealed then c else '❓')

def hintTag : List Char := ['提', '示', ':', ' ']

/-- `GuessIdioms.generate_hint` (main.py lines 504-538). -/
def generate_hint (idiom existing : List Char) (pick : Nat) : List Char × List Char :=
  if hI : idiom = [] then (existing, [])
  else if existing = [] then
    let hint_char := idiom.get ⟨pick % idiom.length, Nat.mod_lt _ (List.length_pos.mpr hI)⟩
    (existing ++ [hint_char],
      hintTag ++ idiom.map (fun c => if c = hint_char then c else '❓'))
  else
    let available := idiom.filter (fun c => decide (c ∉ existing))
    if hA : available = [] then (existing, [])
    else
      let hint_char := available.get ⟨pick % available.length, Nat.mod_lt _ (List.length_pos.mpr hA)⟩
      (existing ++ [hint_char],
        hintTag ++ idiom.map (fun c => if c ∈ existing ++ [hint_char] then c else '❓'))

/-- `k` chained calls of `generate_hint` starting from no revealed
characters, each feeding its updated revealed list to the next call, with
draws given by `picks`. -/
def revealIter (idiom : List Char) (picks : Nat → Nat) : Nat → List Char
  | 0 => []
  | k + 1 => (generate_hint idiom (revealIter idiom picks k) (picks k)).1

/-!  ## Settlement (`end_game`, main.py lines 545-586) -/

/-- One step of Python's stable descending sort: insert `x` before the first
element of strictly smaller score (equal scores keep source order). -/
def rankInsert (x : String × Nat) : List (String × Nat) → List (String × Nat)
  | [] => [x]
  | y :: ys => if x.2 ≥ y.2 then x :: y :: ys else y :: rankInsert x ys

/-- `sorted(session.players.items(), key=lambda x: x[1], reverse=True)`:
Python's sort is stable, and any two stable sorts under the same total
comparison agree, so this insertion sort computes the same ranking list. -/
def sortByScoreDesc (l : List (String × Nat)) : List (String × Nat) :=
  l.foldr rankInsert []

/-- The `for i, (wxid, score) in enumerate(rankings):` body of `end_game`
(main.py lines 564-580), accumulating the result message, the at-list and
the ledger writes.  `lok` is the ledger oracle (`add_points` succeeding or
not); a failed write only suppresses the reward line of the message. -/
def settle_players (base : Int) (bonus : List Int) (nick : String → String)
    (lok : String → Int → Bool) :
    List (String × Nat) → Nat → String → List String → List Msg →
      String × List String × List Msg
  | [], _, rmsg, ats, ops => (rmsg, ats, ops)
  | (wxid, score) :: rest, i, rmsg, ats, ops =>
    let nickname := nick wxid
    let rmsg := rmsg ++ toString (i + 1) ++ ". " ++ nickname ++ ": " ++ toString score ++ "题\n"
    let ats := ats ++ [wxid]
    let points : Int := (score : Int) * base + (if i < bonus.length then bonus.getD i 0 else 0)
    if points > 0 then
      let rmsg := if lok wxid points then rmsg ++ "   🎁 奖励" ++ toString points ++ "积分\n" else rmsg
      settle_players base bonus nick lok rest (i + 1) rmsg ats (ops ++ [Msg.ledger wxid points])
    else
      settle_players base bonus nick lok rest (i + 1) rmsg ats ops

/-- `GuessIdioms.end_game` (main.py lines 545-586) as the list of external
actions it performs.  Faithful to the source's indentation: the final send
(`if at_list: ... else: ...`, lines 583-586) sits inside the non-empty
`else` branch, so with an empty ranking the no-winner text is appended to
`result_msg` but nothing is ever sent. -/
def end_game_msgs (room : String) (players : List (String × Nat)) (base : Int)
    (bonus : List Int) (nick : String → String) (lok : String → Int → Bool) : List Msg :=
  let rankings := sortByScoreDesc players
  if rankings = [] then []
  else
    let res := settle_players base bonus nick lok rankings 0
      "🏆 看图猜成语游戏结束！\n\n📊 最终排名:\n" [] []
    res.2.2 ++ (if res.2.1 = [] then [Msg.text room res.1] else [Msg.atMsg room res.1 res.2.1])

/-- The ledger writes among a list of actions. -/
def ledgerOps (ms : List Msg) : List Msg :=
  ms.filter (fun m => match m with | .ledger _ _ => true | _ => false)

/-!  ## The round loop (`game_loop`, main.py lines 322-427)

Per iteration, the environment supplies the provider response, whether the
image download (`_download_image`) succeeded, whether one of the sends of
the `try` block raised (modelled at the image send: the header is already
out, and any other raise point differs only in which messages were
delivered before the skip), and how the completion wait (line 375) ended:
with a winner recorded by the answer router, with the timeout watchdog
completing the round, or with the session deactivated out-of-band by the
stop command.  The hint task's writes to `hint_chars` / `hint_count` and its
chat sends are independent of everything the loop reads and are not
modelled here (the hint computation itself is `generate_hint` above).

Every continuing iteration increments `current_round` by exactly one and
leaves `total_rounds` unchanged, so `total_rounds - current_round` is an
exact bound on the remaining iterations; `loopFuel`'s zero-fuel fallback is
reached only in states where the `while` condition is already false, hence
`game_loop` computes precisely the source loop. -/

inductive WaitOutcome where
  | won (user : String)
  | timedOut
  | stopped
deriving DecidableEq

structure RoundEnv where
  resp : ApiResponse
  imageOk : Bool
  sendRaises : Bool
  outcome : WaitOutcome

/-- Final observables of one `game_loop` task: the session value at exit,
the actions performed, whether settlement ran, and whether the entry was
removed from the room table. -/
structure LoopResult where
  session : GameSession
  msgs : List Msg
  settled : Bool
  removed : Bool
deriving DecidableEq

def roundHeader (current total : Nat) : String :=
  "🔍 第 " ++ toString (current + 1) ++ "/" ++ toString total ++ " 轮"

def fetchFailText (m : String) : String := "❌ 获取成语失败: " ++ m

def imageFailText : String := "❌ 获取图片失败，跳过本轮游戏。"

def sendFailText : String := "❌ 发送图片失败，跳过当前轮次。"

def promptText : String := "⏱️ 请猜出图片代表的成语..."

def winText (idiom : Option String) : String :=
  "🎉 恭喜猜对了！\n正确答案是: " ++ optStrRepr idiom

def timeUpText (idiom : Option String) : String :=
  "⏱️ 时间到！没有人猜对。\n正确答案是: " ++ optStrRepr idiom

def earlyEndText : String := "🔔 连续两轮无人答对，游戏自动结束！"

/-- The `GameRound(image_url=image_url, idiom=answer)` constructed at
main.py lines 340-343 from a fetch result. -/
def fetchedRound (fr : Bool × String × Option String × Option String) : GameRound :=
  { image_url := fr.2.2.1.getD "", idiom := fr.2.2.2, hint_chars := [],
    correct_user := none, is_completed := false, hint_count := 0 }

/-- `session.players[u] = session.players.get(u, 0) + 1` with dict
semantics: bump in place, else append with count 1. -/
def bumpScore (ps : List (String × Nat)) (u : String) : List (String × Nat) :=
  if (List.lookup u ps).isSome then
    ps.map (fun p => if p.1 = u then (p.1, p.2 + 1) else p)
  else
    ps ++ [(u, 1)]

/-- Code after the loop (main.py lines 421-427): settle only if still
active, then remove the session from the table unconditionally. -/
def after_loop (cfg : Config) (room : String) (s : GameSession) (acc : List Msg) : LoopResult :=
  { session := s
    msgs := acc ++ (if s.active = true then
      end_game_msgs room s.players cfg.base_points cfg.bonus_points cfg.nick cfg.ledgerOk else [])
    settled := s.active
    removed := true }

/-- The `while` loop of `game_loop` (main.py lines 331-419), fuelled. -/
def loopFuel (cfg : Config) (room : String) (env : Nat → RoundEnv) :
    Nat → GameSession → Nat → List Msg → LoopResult
  | 0, s, _, acc => after_loop cfg room s acc
  | fuel + 1, s, unanswered, acc =>
    if s.current_round < s.total_rounds ∧ s.active = true then
      let e := env s.current_round
      let fr := fetch_game_data e.resp
      if fr.1 = false ∨ optStrFalsy fr.2.2.1 = true then
        after_loop cfg room { s with active := false }
          (acc ++ [Msg.text room (fetchFailText fr.2.1)])
      else
        let r0 := fetchedRound fr
        let s1 := { s with rounds := s.rounds ++ [r0] }
        let acc1 := acc ++ [Msg.text room (roundHeader s.current_round s.total_rounds)]
        if e.imageOk = false then
          loopFuel cfg room env fuel { s1 with current_round := s1.current_round + 1 }
            unanswered (acc1 ++ [Msg.text room imageFailText])
        else if e.sendRaises = true then
          loopFuel cfg room env fuel { s1 with current_round := s1.current_round + 1 }
            unanswered (acc1 ++ [Msg.text room sendFailText])
        else
          let acc2 := acc1 ++ [Msg.image room, Msg.text room promptText]
          match e.outcome with
          | .stopped =>
            after_loop cfg room { s1 with active := false } acc2
          | .won u =>
            let s2 := { s1 with
              rounds := s.rounds ++ [{ r0 with correct_user := some u, is_completed := true }] }
            loopFuel cfg room env fuel
              { s2 with current_round := s2.current_round + 1, players := bumpScore s2.players u }
              0 (acc2 ++ [Msg.atMsg room (winText r0.idiom) [u]])
          | .timedOut =>
            let s2 := { s1 with rounds := s.rounds ++ [{ r0 with is_completed := true }] }
            let acc3 := acc2 ++ [Msg.text room (timeUpText r0.idiom)]
            if unanswered + 1 ≥ 2 then
              if s.current_round + 1 ≥ s.total_rounds then
                after_loop cfg room s2 acc3
              else
                after_loop cfg room s2 (acc3 ++ [Msg.text room earlyEndText])
            else
              loopFuel cfg room env fuel { s2 with current_round := s2.current_round + 1 }
                (unanswered + 1) acc3
    else after_loop cfg room s acc

/-- `GuessIdioms.game_loop` (main.py lines 322-427) for a session present in
the table, started with the no-winner counter `unanswered` and the actions
already performed in `acc`. -/
def game_loop (cfg : Config) (room : String) (env : Nat → RoundEnv)
    (s : GameSession) (unanswered : Nat) (acc : List Msg) : LoopResult :=
  loopFuel cfg room env (s.total_rounds - s.current_round) s unanswered acc

/-!  ## The answer router (`handle_text`, main.py lines 673-727) and
session start/stop -/

/-- Python `s.endswith(suf)` by code points. -/
def endsWithList (suf s : List Char) : Bool :=
  decide (s.length ≥ suf.length) && decide (s.drop (s.length - suf.length) = suf)

/-- `from_wxid.endswith("@chatroom")` (main.py lines 687, 694, 717). -/
def isChatroomId (s : String) : Bool := endsWithList "@chatroom".toList s.toList

def busyText : String := "已经有一局游戏正在进行中，请等待当前游戏结束。"

def groupOnlyText : String := "看图猜成语游戏仅支持在群聊中使用。"

def startText (cfg : Config) : String :=
  "🎮 看图猜成语游戏开始！\n本局游戏共" ++ toString cfg.rounds_per_game ++
    "轮，猜对一题得" ++ toString cfg.base_points ++ "分！"

def stopRevealText (idiom : Option String) : String :=
  "🛑 游戏已手动结束！\n当前题目答案是: " ++ optStrRepr idiom

def gameErrText (e : String) : String := "游戏运行出错，请稍后再试: " ++ e

def newSession (cfg : Config) (room : String) : GameSession :=
  { chatroom_id := room, rounds := [], current_round := 0,
    total_rounds := cfg.rounds_per_game, active := true, players := [] }

/-- `GuessIdioms.start_game` (main.py lines 285-305): busy notice if a
session is already active for the room, else install a fresh session,
announce, and spawn the loop task. -/
def start_game (cfg : Config) (t : Table) (room : String) : Table × List Msg :=
  if (match List.lookup room t with | some s => s.active | none => false) = true then
    (t, [Msg.text room busyText])
  else
    (tableSet t room (newSession cfg room), [Msg.text room (startText cfg), Msg.spawn room])

/-- Truthiness of `game_round.idiom` in `if not game_round.is_completed and
game_round.idiom:` (main.py line 704): `None` and `""` are falsy. -/
def optTruthy : Option String → Bool
  | none => false
  | some a => decide (a ≠ "")

/-- The stop branch of `handle_text` (main.py lines 694-714), reached when a
session exists for the room: if active, deactivate, reveal the pending
answer when the current round is unrevealed, settle, and delete the entry. -/
def stop_game (cfg : Config) (t : Table) (room : String) : Table × List Msg :=
  match List.lookup room t with
  | none => (t, [])
  | some s =>
    if s.active = true then
      let reveal : List Msg :=
        match s.rounds[s.current_round]? with
        | some r =>
          if r.is_completed = false ∧ optTruthy r.idiom = true then
            [Msg.text room (stopRevealText r.idiom)]
          else []
        | none => []
      (tableErase t room,
        reveal ++ end_game_msgs room s.players cfg.base_points cfg.bonus_points cfg.nick cfg.ledgerOk)
    else (t, [])

/-- The answer branch of `handle_text` (main.py lines 717-727): mutate only
an active session whose current round exists and is not completed, and only
on an exact match. -/
def answer_route (t : Table) (room sender content : String) : Table :=
  match List.lookup room t with
  | none => t
  | some s =>
    if s.active = true ∧ s.current_round < s.rounds.length then
      match s.rounds[s.current_round]? with
      | none => t
      | some r =>
        if r.is_completed = false then
          if check_answer content r.idiom = true then
            let r' := { r with correct_user := some sender, is_completed := true }
            tableSet t room { s with rounds := s.rounds.set s.current_round r' }
          else t
        else t
    else t

structure TextMessage where
  content : String
  sender_wxid : String
  from_wxid : String

/-- `GuessIdioms.handle_text` (main.py lines 673-727): command routing in
source order — start commands, the stop command, then candidate answers. -/
def handle_text (cfg : Config) (t : Table) (m : TextMessage) : Table × List Msg :=
  if cfg.enable = false then (t, [])
  else if m.content ∈ cfg.commands then
    if isChatroomId m.from_wxid = true then start_game cfg t m.from_wxid
    else (t, [Msg.text m.sender_wxid groupOnlyText])
  else if m.content = "结束游戏" ∧ isChatroomId m.from_wxid = true ∧
      (List.lookup m.from_wxid t).isSome = true then
    stop_game cfg t m.from_wxid
  else if isChatroomId m.from_wxid = true ∧ (List.lookup m.from_wxid t).isSome = true then
    (answer_route t m.from_wxid m.sender_wxid m.content, [])
  else (t, [])

/-- `GuessIdioms.handle_game_exception` (main.py lines 307-320): on a task
fault, notify the room and set the session inactive if the entry is present.
The entry itself is never deleted here, and a fault escaping `game_loop`
skips that coroutine's own cleanup (lines 426-427), so the entry stays. -/
def handle_game_exception (exc : Option String) (room : String) (t : Table) :
    Table × List Msg :=
  match exc with
  | none => (t, [])
  | some e =>
    let t' := if (List.lookup room t).isSome then
        t.map (fun p => if p.1 = room then (p.1, { p.2 with active := false }) else p)
      else t
    (t', [Msg.text room (gameErrText e)])

/-!  ## Observers and concrete fixtures used by witnesses -/

/-- The round at index `i` of the room's session, as seen in the table. -/
def roundAt (t : Table) (room : String) (i : Nat) : Option GameRound :=
  match List.lookup room t with
  | none => none
  | some s => s.rounds[i]?

/-- Modelled from the spec: the settlement formula "reward = score ×
base-points-per-round + (rank-based bonus if rank index falls within the
configured bonus table, else 0)", for comparison against `settle_players`. -/
def rewardSpec (base : Int) (bonus : List Int) (rank : Nat) (score : Nat) : Int :=
  (score : Int) * base + (if rank < bonus.length then bonus.getD rank 0 else 0)

/-- A concrete configuration for witnesses: the default config values of
`main.py`, with identity nickname store and an always-succeeding ledger. -/
def cfg0 : Config :=
  { enable := true, commands := ["看图猜成语", "成语猜猜", "猜成语"], rounds_per_game := 5,
    base_points := 10, bonus_points := [5, 3, 1], nick := fun w => w,
    ledgerOk := fun _ _ => true }

/-- A provider response that succeeds with a picture and an answer. -/
def respOk : ApiResponse :=
  .http 200 (.jsonOk (some 200) "" "看图猜成语" "http://x/a.jpg" "一心一意" "" none)

/-- An environment whose every round fetches `respOk`, delivers the image,
and times out with no winner. -/
def envTimeout : Nat → RoundEnv :=
  fun _ => { resp := respOk, imageOk := true, sendRaises := false, outcome := .timedOut }

/-- An environment whose every round fails to fetch (provider HTTP 500). -/
def envFetchFail : Nat → RoundEnv :=
  fun _ => { resp := .http 500 (.readError ""), imageOk := true, sendRaises := false,
             outcome := .timedOut }

/-- An environment whose fetch succeeds with an empty `pic` field. -/
def envEmptyPic : Nat → RoundEnv :=
  fun _ => { resp := .http 200 (.jsonOk (some 200) "" "m" "" "答" "" none), imageOk := true,
             sendRaises := false, outcome := .timedOut }

/-- A sample in-flight round and session for witnesses. -/
def round0 : GameRound :=
  { image_url := "http://x/a.jpg", idiom := some "一心一意", hint_chars := [],
    correct_user := none, is_completed := false, hint_count := 0 }

def sess0 : GameSession :=
  { chatroom_id := "g@chatroom", rounds := [round0], current_round := 0, total_rounds := 5,
    active := true, players := [] }

def table0 : Table := [("g@chatroom", sess0)]

/-- A between-rounds session: the cursor equals the rounds list length. -/
def sessBetween : GameSession :=
  { chatroom_id := "g@chatroom", rounds := [], current_round := 0, total_rounds := 5,
    active := true, players := [] }

def tableBetween : Table := [("g@chatroom", sessBetween)]

/-- A correct-answer message for `round0` from player `u1`. -/
def msg0 : TextMessage :=
  { content := "一心一意", sender_wxid := "u1", from_wxid := "g@chatroom" }

/-!  ## Helper lemmas about the room table -/

theorem lookup_map_modKey (t : Table) (k : String) (f : GameSession → GameSession) :
    List.lookup k (t.map (fun p => if p.1 = k then (p.1, f p.2) else p)) =
      (List.lookup k t).map f := by
  induction t with
  | nil => rfl
  | cons hd tl ih =>
    obtain ⟨a, b⟩ := hd
    simp only [List.map_cons]
    by_cases h : a = k
    · subst h
      simp only [if_pos rfl]
      simp [List.lookup, ih]
    · have hk : (k == a) = false := by
        simp only [beq_eq_false_iff_ne]
        exact fun he => h he.symm
      simp only [if_neg h]
      simp [List.lookup, hk, ih]

theorem lookup_append_right (t l : List (String × GameSession)) (k : String)
    (h : List.lookup k t = none) : List.lookup k (t ++ l) = List.lookup k l := by
  induction t with
  | nil => rfl
  | cons hd tl ih =>
    obtain ⟨a, b⟩ := hd
    by_cases hk : k = a
    · simp [List.lookup, hk] at h
    · have hk' : (k == a) = false := by simp only [beq_eq_false_iff_ne]; exact hk
      simp only [List.cons_append, List.lookup, hk'] at h ⊢
      exact ih h

theorem lookup_tableSet_self (t : Table) (k : String) (v : GameSession) :
    List.lookup k (tableSet t k v) = some v := by
  unfold tableSet
  by_cases h : (List.lookup k t).isSome
  · obtain ⟨s, hs⟩ := Option.isSome_iff_exists.mp h
    have := lookup_map_modKey t k (fun _ => v)
    simp [h, this, hs]
  · have hn : List.lookup k t = none := Option.not_isSome_iff_eq_none.mp h
    simp [h, lookup_append_right t _ k hn, List.lookup]

theorem keys_map_modKey (t : Table) (k : String) (f : GameSession → GameSession) :
    (t.map (fun p => if p.1 = k then (p.1, f p.2) else p)).map Prod.fst = t.map Prod.fst := by
  induction t with
  | nil => rfl
  | cons hd tl ih =>
    obtain ⟨a, b⟩ := hd
    simp only [List.map_cons]
    by_cases h : a = k
    · subst h
      simp only [if_pos rfl]
      simp [ih]
    · simp only [if_neg h]
      simp [ih]

/-- C7: a message routed as a candidate answer to an active, uncompleted
current round is checked by exact string equality against the round's idiom
(no fuzzy matching, no trimming); on a match the sender is recorded as
winner and the round marked completed in one write, and on a non-match the
table is unchanged. -/
theorem answer_routing_exact_equality (cfg : Config) (t : Table) (m : TextMessage)
    (s : GameSession) (r : GameRound)
    (hen : cfg.enable = true)
    (hnc : m.content ∉ cfg.commands)
    (hns : m.content ≠ "结束游戏")
    (hroom : isChatroomId m.from_wxid = true)
    (hs : List.lookup m.from_wxid t = some s)
    (hact : s.active = true)
    (hlt : s.current_round < s.rounds.length)
    (hr : s.rounds[s.current_round]? = some r)
    (hinc : r.is_completed = false) :
    (check_answer m.content r.idiom = true ↔ r.idiom = some m.content) ∧
    (r.idiom = some m.content →
      handle_text cfg t m =
        (tableSet t m.from_wxid
          { s with rounds := s.rounds.set s.current_round { r with correct_user := some m.sender_wxid, is_completed := true } }, [])) ∧
    (r.idiom ≠ some m.content → handle_text cfg t m = (t, [])) := by
  have hcheck : check_answer m.content r.idiom = true ↔ r.idiom = some m.content := by
    cases hio : r.idiom with
    | none => simp [check_answer]
    | some a => simp [check_answer, eq_comm]
  refine ⟨hcheck, ?_, ?_⟩
  · intro hmatch
    have hc : check_answer m.content r.idiom = true := hcheck.mpr hmatch
    simp [handle_text, hen, hnc, hns, hroom, hs, answer_route, hact, hlt, hr, hinc, hc]
  · intro hne
    have hc : check_answer m.content r.idiom = false := by
      rcases Bool.eq_false_or_eq_true (check_answer m.content r.idiom) with h | h
      · exact absurd (hcheck.mp h) hne
      · exact h
    simp [handle_text, hen, hnc, hns, hroom, hs, answer_route, hact, hlt, hr, hinc, hc]

theorem answer_routing_exact_equality_witness :
    round0.idiom = some "一心一意" ∧
    handle_text cfg0 table0 { content := "一心一意", sender_wxid := "u1", from_wxid := "g@chatroom" } =
      (tableSet table0 "g@chatroom"
        { sess0 with rounds := sess0.rounds.set 0 { round0 with correct_user := some "u1", is_completed := true } }, []) :=
  ⟨rfl,
    (answer_routing_exact_equality cfg0 table0
      { content := "一心一意", sender_wxid := "u1", from_wxid := "g@chatroom" } sess0 round0
      (by decide) (by decide) (by decide) (by decide) (by decide) (by decide) (by decide)
      (by decide) (by decide)).2.1 rfl⟩

/-- C10: a non-command inbound message mutates no Round or Session state
unless the room's session is active, the current-round cursor is strictly
below the rounds list length, and that round is uncompleted; whenever any of
these fails (including no session, a between-rounds cursor equal to the list
length, or a completed current round) the table is returned unchanged and
nothing is sent. -/
theorem answer_router_guard_no_mutation (cfg : Config) (t : Table) (m : TextMessage)
    (hen : cfg.enable = true)
    (hnc : m.content ∉ cfg.commands)
    (hns : m.content ≠ "结束游戏")
    (hguard : ∀ s, List.lookup m.from_wxid t = some s →
      s.active = false ∨ s.rounds.length ≤ s.current_round ∨
        ∀ r, s.rounds[s.current_round]? = some r → r.is_completed = true) :
    handle_text cfg t m = (t, []) := by
  by_cases hroom : isChatroomId m.from_wxid = true
  · cases hs : List.lookup m.from_wxid t with
    | none => simp [handle_text, hen, hnc, hns, hroom, hs, answer_route]
    | some s =>
      rcases hguard s hs with h | h | h
      · have : ¬ (s.active = true ∧ s.current_round < s.rounds.length) := by
          intro hc
          rw [h] at hc
          exact absurd hc.1 (by simp)
        simp [handle_text, hen, hnc, hns, hroom, hs, answer_route, this]
      · have : ¬ (s.active = true ∧ s.current_round < s.rounds.length) := by
          intro hc
          omega
        simp [handle_text, hen, hnc, hns, hroom, hs, answer_route, this]
      · by_cases hcur : s.active = true ∧ s.current_round < s.rounds.length
        · obtain ⟨r, hr⟩ : ∃ r, s.rounds[s.current_round]? = some r :=
            ⟨_, List.getElem?_eq_getElem hcur.2⟩
          have hcomp := h _ hr
          simp [handle_text, hen, hnc, hns, hroom, hs, answer_route, hcur, hr, hcomp]
        · simp [handle_text, hen, hnc, hns, hroom, hs, answer_route, hcur]
  · simp [handle_text, hen, hnc, hns, hroom]

theorem answer_router_guard_no_mutation_witness :
    handle_text cfg0 tableBetween { content := "一心一意", sender_wxid := "u1", from_wxid := "g@chatroom" } =
      (tableBetween, []) :=
  answer_router_guard_no_mutation cfg0 tableBetween
    { content := "一心一意", sender_wxid := "u1", from_wxid := "g@chatroom" }
    (by decide) (by decide) (by decide)
    (by
      intro s hs
      have hse : s = sessBetween := by
        simp [tableBetween, List.lookup] at hs
        exact hs.symm
      subst hse
      right; left; decide)

/-!  ## Helper lemmas about the answer router and timeout watchdog -/

theorem handle_text_answer_match (cfg : Config) (t : Table) (m : TextMessage)
    (s : GameSession) (r : GameRound)
    (hen : cfg.enable = true) (hnc : m.content ∉ cfg.commands) (hns : m.content ≠ "结束游戏")
    (hroom : isChatroomId m.from_wxid = true) (hs : List.lookup m.from_wxid t = some s)
    (hact : s.active = true) (hlt : s.current_round < s.rounds.length)
    (hr : s.rounds[s.current_round]? = some r) (hinc : r.is_completed = false)
    (hc : check_answer m.content r.idiom = true) :
    handle_text cfg t m =
      (tableSet t m.from_wxid
        { s with rounds := s.rounds.set s.current_round { r with correct_user := some m.sender_wxid, is_completed := true } }, []) := by
  simp [handle_text, hen, hnc, hns, hroom, hs, answer_route, hact, hlt, hr, hinc, hc]

theorem handle_text_round_completed (cfg : Config) (t : Table) (m : TextMessage)
    (s : GameSession) (r : GameRound)
    (hen : cfg.enable = true) (hnc : m.content ∉ cfg.commands) (hns : m.content ≠ "结束游戏")
    (hroom : isChatroomId m.from_wxid = true) (hs : List.lookup m.from_wxid t = some s)
    (hr : s.rounds[s.current_round]? = some r) (hcomp : r.is_completed = true) :
    handle_text cfg t m = (t, []) := by
  by_cases hcur : s.active = true ∧ s.current_round < s.rounds.length
  · simp [handle_text, hen, hnc, hns, hroom, hs, answer_route, hcur, hr, hcomp]
  · simp [handle_text, hen, hnc, hns, hroom, hs, answer_route, hcur]

theorem round_timeout_fires (t : Table) (room : String) (idx : Nat)
    (s : GameSession) (r : GameRound)
    (hs : List.lookup room t = some s) (hr : s.rounds[idx]? = some r)
    (hinc : r.is_completed = false) (hact : s.active = true) :
    round_timeout_timer t room idx =
      tableSet t room { s with rounds := s.rounds.set idx { r with is_completed := true } } := by
  simp [round_timeout_timer, hs, hr, hinc, hact]

theorem round_timeout_noop (t : Table) (room : String) (idx : Nat)
    (s : GameSession) (r : GameRound)
    (hs : List.lookup room t = some s) (hr : s.rounds[idx]? = some r)
    (hcomp : r.is_completed = true) :
    round_timeout_timer t room idx = t := by
  simp [round_timeout_timer, hs, hr, hcomp]

/-- C1: if a correct answer and the round timeout both fire for the same
round, exactly one outcome is recorded under either interleaving order: the
answer first yields winner-and-completed with the later timeout a no-op; the
timeout first yields completed-with-no-winner with the later answer a no-op.
Completion is monotonic: each writer re-checks `is_completed` immediately
before its write and neither ever resets it. -/
theorem round_completion_exclusive (cfg : Config) (t : Table) (m : TextMessage)
    (s : GameSession) (r : GameRound)
    (hen : cfg.enable = true) (hnc : m.content ∉ cfg.commands) (hns : m.content ≠ "结束游戏")
    (hroom : isChatroomId m.from_wxid = true) (hs : List.lookup m.from_wxid t = some s)
    (hact : s.active = true) (hlt : s.current_round < s.rounds.length)
    (hr : s.rounds[s.current_round]? = some r) (hinc : r.is_completed = false)
    (hcu : r.correct_user = none) (hmatch : r.idiom = some m.content) :
    (roundAt (round_timeout_timer (handle_text cfg t m).1 m.from_wxid s.current_round)
        m.from_wxid s.current_round =
          some { r with correct_user := some m.sender_wxid, is_completed := true } ∧
      round_timeout_timer (handle_text cfg t m).1 m.from_wxid s.current_round =
        (handle_text cfg t m).1) ∧
    (roundAt (handle_text cfg (round_timeout_timer t m.from_wxid s.current_round) m).1
        m.from_wxid s.current_round = some { r with is_completed := true } ∧
      ({ r with is_completed := true } : GameRound).correct_user = none ∧
      (handle_text cfg (round_timeout_timer t m.from_wxid s.current_round) m).1 =
        round_timeout_timer t m.from_wxid s.current_round) := by
  have hc : check_answer m.content r.idiom = true := by simp [check_answer, hmatch]
  constructor
  · -- answer first, then timeout
    have ht := handle_text_answer_match cfg t m s r hen hnc hns hroom hs hact hlt hr hinc hc
    have ht1 : (handle_text cfg t m).1 =
        tableSet t m.from_wxid
          { s with rounds := s.rounds.set s.current_round { r with correct_user := some m.sender_wxid, is_completed := true } } := by
      rw [ht]
    have hlk : List.lookup m.from_wxid (handle_text cfg t m).1 =
        some { s with rounds := s.rounds.set s.current_round { r with correct_user := some m.sender_wxid, is_completed := true } } := by
      rw [ht1]; exact lookup_tableSet_self ..
    have hget : (s.rounds.set s.current_round { r with correct_user := some m.sender_wxid, is_completed := true })[s.current_round]? =
        some { r with correct_user := some m.sender_wxid, is_completed := true } :=
      List.getElem?_set_self hlt
    have hrtt := round_timeout_noop (handle_text cfg t m).1 m.from_wxid s.current_round _ _
      hlk hget rfl
    refine ⟨?_, hrtt⟩
    rw [hrtt]
    simp [roundAt, hlk, hget]
  · -- timeout first, then answer
    have hT := round_timeout_fires t m.from_wxid s.current_round s r hs hr hinc hact
    have hlk : List.lookup m.from_wxid (round_timeout_timer t m.from_wxid s.current_round) =
        some { s with rounds := s.rounds.set s.current_round { r with is_completed := true } } := by
      rw [hT]; exact lookup_tableSet_self ..
    have hget : (s.rounds.set s.current_round { r with is_completed := true })[s.current_round]? =
        some { r with is_completed := true } :=
      List.getElem?_set_self hlt
    have hA := handle_text_round_completed cfg
      (round_timeout_timer t m.from_wxid s.current_round) m _ _ hen hnc hns hroom hlk hget rfl
    refine ⟨?_, by simp [hcu], by rw [hA]⟩
    rw [hA]
    simp [roundAt, hlk, hget]

theorem round_completion_exclusive_witness :
    roundAt (round_timeout_timer (handle_text cfg0 table0 msg0).1 "g@chatroom" 0) "g@chatroom" 0 =
      some { round0 with correct_user := some "u1", is_completed := true } ∧
    roundAt (handle_text cfg0 (round_timeout_timer table0 "g@chatroom" 0) msg0).1 "g@chatroom" 0 =
      some { round0 with is_completed := true } := by
  have h := round_completion_exclusive cfg0 table0 msg0 sess0 round0 (by decide) (by decide)
    (by decide) (by decide) (by decide) (by decide) (by decide) (by decide) (by decide)
    (by decide) rfl
  exact ⟨h.1.1, h.2.1⟩

theorem rankInsert_length (x : String × Nat) (l : List (String × Nat)) :
    (rankInsert x l).length = l.length + 1 := by
  induction l with
  | nil => rfl
  | cons y ys ih =>
    by_cases h : x.2 ≥ y.2 <;> simp [rankInsert, h, ih]

theorem sortByScoreDesc_length (l : List (String × Nat)) :
    (sortByScoreDesc l).length = l.length := by
  induction l with
  | nil => rfl
  | cons y ys ih => simp [sortByScoreDesc, List.foldr_cons, rankInsert_length]
                    simpa [sortByScoreDesc] using ih

/-- C3 (code bug): with an empty scores mapping, `end_game` takes the
no-winner branch (appending "本局游戏无人答对！" to `result_msg`), but the
final send (main.py lines 583-586) is indented inside the non-empty `else`
branch, so nothing is ever sent: the settlement performs no external action
at all, contradicting the intended no-winner announcement.  The second
conjunct shows the branch is taken iff the mapping is empty: every
non-empty mapping produces at least one send. -/
theorem end_game_empty_scores_sends_nothing (room : String) (base : Int) (bonus : List Int)
    (nick : String → String) (lok : String → Int → Bool) :
    end_game_msgs room [] base bonus nick lok = [] ∧
    (∀ (w : String) (n : Nat) (ps : List (String × Nat)),
      end_game_msgs room ((w, n) :: ps) base bonus nick lok ≠ []) := by
  refine ⟨rfl, ?_⟩
  intro w n ps
  have hne : sortByScoreDesc ((w, n) :: ps) ≠ [] := by
    intro h
    have := sortByScoreDesc_length ((w, n) :: ps)
    rw [h] at this
    simp at this
  unfold end_game_msgs
  simp only [hne, if_false]
  rcases h : (settle_players base bonus nick lok (sortByScoreDesc ((w, n) :: ps)) 0
      "🏆 看图猜成语游戏结束！\n\n📊 最终排名:\n" [] []) with ⟨rmsg, ats, ops⟩
  by_cases hats : ats = [] <;> simp [hats]

/-- C9 (counterexample): after a task fault, the handler leaves the room's
entry in the table — `handle_game_exception` only flips `active` to false
(main.py lines 317-318) and never deletes the entry, and a fault escaping
`game_loop` skips that coroutine's own cleanup, so the claim that the
session is "removed from the room table" is false on this concrete input. -/
theorem handle_game_exception_keeps_entry :
    (List.lookup "g@chatroom" (handle_game_exception (some "boom") "g@chatroom" table0).1).isSome
      = true ∧
    List.lookup "g@chatroom" (handle_game_exception (some "boom") "g@chatroom" table0).1
      = some { sess0 with active := false } := by
  constructor <;> decide

/-- C9 (amended): when a fault escapes the game-loop task, the handler
catches it, sends a generic failure notice to the room, and deactivates the
room's session so it is no longer stuck active — but the entry is not
removed from the table; it remains (inactive, so a later start command
overwrites it) with every key of the table preserved. -/
theorem handle_game_exception_deactivates (e room : String) (t : Table) :
    (handle_game_exception (some e) room t).2 = [Msg.text room (gameErrText e)] ∧
    ((handle_game_exception (some e) room t).1).map Prod.fst = t.map Prod.fst ∧
    (∀ s, List.lookup room t = some s →
      List.lookup room (handle_game_exception (some e) room t).1 =
        some { s with active := false }) := by
  refine ⟨rfl, ?_, ?_⟩
  · unfold handle_game_exception
    by_cases h : (List.lookup room t).isSome
    · simp only [h, if_true]
      exact keys_map_modKey t room (fun s => { s with active := false })
    · simp [h]
  · intro s hs
    unfold handle_game_exception
    have hsome : (List.lookup room t).isSome = true := by simp [hs]
    simp only [hsome, if_true]
    have := lookup_map_modKey t room (fun s => { s with active := false })
    simp [this, hs]

theorem handle_game_exception_deactivates_witness :
    List.lookup "g@chatroom" table0 = some sess0 ∧
    List.lookup "g@chatroom" (handle_game_exception (some "boom") "g@chatroom" table0).1 =
      some { sess0 with active := false } :=
  ⟨by decide,
    (handle_game_exception_deactivates "boom" "g@chatroom" table0).2.2 sess0 (by decide)⟩

/-!  ## Settlement rewards (C2) -/

theorem settle_players_ops (base : Int) (bonus : List Int) (nick : String → String)
    (lok : String → Int → Bool) (l : List (String × Nat)) :
    ∀ (i : Nat) (rmsg : String) (ats : List String) (ops : List Msg),
      (settle_players base bonus nick lok l i rmsg ats ops).2.2 =
        ops ++ ((List.enumFrom i l).filter
            (fun q => decide (rewardSpec base bonus q.1 q.2.2 > 0))).map
          (fun q => Msg.ledger q.2.1 (rewardSpec base bonus q.1 q.2.2)) := by
  induction l with
  | nil => intro i rmsg ats ops; simp [settle_players]
  | cons hd tl ih =>
    intro i rmsg ats ops
    obtain ⟨wxid, score⟩ := hd
    have hpts : (score : Int) * base + (if i < bonus.length then bonus.getD i 0 else 0) =
        rewardSpec base bonus i score := rfl
    by_cases h : rewardSpec base bonus i score > 0
    · simp only [settle_players, hpts, if_pos h, List.enumFrom]
      rw [ih]
      simp [h]
    · simp only [settle_players, hpts, if_neg h, List.enumFrom]
      rw [ih]
      simp [h]

/-- C2 (counterexample): for scores `{A:3, B:1, C:0}` with `basePoints=10`
and `bonus=[5,3,1]`, the ledger writes performed by `end_game` are
`A=35, B=13, C=1` — the rank-2 (0-based) player has score 0 yet still falls
within the bonus table, so `points = 0*10 + bonus[2] = 1 > 0` and
`add_points(C, 1)` is called, contradicting the claimed `C=0`. -/
theorem settlement_reward_c_is_one :
    ledgerOps (end_game_msgs "g" [("A", 3), ("B", 1), ("C", 0)] 10 [5, 3, 1]
        (fun w => w) (fun _ _ => true)) =
      [Msg.ledger "A" 35, Msg.ledger "B" 13, Msg.ledger "C" 1] ∧
    Msg.ledger "C" 0 ∉ end_game_msgs "g" [("A", 3), ("B", 1), ("C", 0)] 10 [5, 3, 1]
        (fun w => w) (fun _ _ => true) ∧
    Msg.ledger "C" 1 ∈ end_game_msgs "g" [("A", 3), ("B", 1), ("C", 0)] 10 [5, 3, 1]
        (fun w => w) (fun _ _ => true) := by
  refine ⟨by decide, by decide, by decide⟩

/-- C2 (amended): for every ranked player the ledger write equals
score × base-points + (the rank bonus if the rank index falls within the
bonus table, else 0), applied exactly when this value is positive; in
particular for scores `{A:3, B:1, C:0}`, `basePoints=10`, `bonus=[5,3,1]`
the applied rewards are A=35, B=13 and C=1 (not 0: a zero-score player
within the bonus table still receives the positive rank bonus). -/
theorem settlement_reward_formula (room : String) (players : List (String × Nat))
    (base : Int) (bonus : List Int) (nick : String → String) (lok : String → Int → Bool) :
    ledgerOps (end_game_msgs room players base bonus nick lok) =
      ((sortByScoreDesc players).enum.filter
          (fun q => decide (rewardSpec base bonus q.1 q.2.2 > 0))).map
        (fun q => Msg.ledger q.2.1 (rewardSpec base bonus q.1 q.2.2)) ∧
    ledgerOps (end_game_msgs "g" [("A", 3), ("B", 1), ("C", 0)] 10 [5, 3, 1]
        (fun w => w) (fun _ _ => true)) =
      [Msg.ledger "A" 35, Msg.ledger "B" 13, Msg.ledger "C" 1] := by
  constructor
  · simp only [end_game_msgs]
    by_cases h : sortByScoreDesc players = []
    · simp [h, ledgerOps]
    · rw [if_neg h]
      unfold ledgerOps
      rw [List.filter_append]
      rw [settle_players_ops]
      simp only [List.nil_append]
      have hsend : List.filter (fun m => match m with | Msg.ledger _ _ => true | _ => false)
          (if (settle_players base bonus nick lok (sortByScoreDesc players) 0
              "🏆 看图猜成语游戏结束！\n\n📊 最终排名:\n" [] []).2.1 = [] then
            [Msg.text room (settle_players base bonus nick lok (sortByScoreDesc players) 0
              "🏆 看图猜成语游戏结束！\n\n📊 最终排名:\n" [] []).1]
          else
            [Msg.atMsg room (settle_players base bonus nick lok (sortByScoreDesc players) 0
              "🏆 看图猜成语游戏结束！\n\n📊 最终排名:\n" [] []).1
              (settle_players base bonus nick lok (sortByScoreDesc players) 0
                "🏆 看图猜成语游戏结束！\n\n📊 最终排名:\n" [] []).2.1]) = [] := by
        by_cases hats : (settle_players base bonus nick lok (sortByScoreDesc players) 0
            "🏆 看图猜成语游戏结束！\n\n📊 最终排名:\n" [] []).2.1 = [] <;> simp [hats]
      rw [hsend, List.append_nil]
      refine List.filter_eq_self.mpr ?_
      intro a ha
      obtain ⟨q, hq1, hq2⟩ := List.mem_map.mp ha
      rw [← hq2]
  · decide

/-!  ## Fetch failure aborts the loop (C8, C5) -/

theorem loop_fetch_reject (cfg : Config) (room : String) (env : Nat → RoundEnv)
    (s : GameSession) (unanswered : Nat) (acc : List Msg)
    (hact : s.active = true) (hlt : s.current_round < s.total_rounds)
    (hfail : (fetch_game_data (env s.current_round).resp).1 = false ∨
      optStrFalsy (fetch_game_data (env s.current_round).resp).2.2.1 = true) :
    game_loop cfg room env s unanswered acc =
      { session := { s with active := false },
        msgs := acc ++ [Msg.text room (fetchFailText (fetch_game_data (env s.current_round).resp).2.1)],
        settled := false,
        removed := true } := by
  obtain ⟨m, hm⟩ : ∃ m, s.total_rounds - s.current_round = m + 1 :=
    ⟨s.total_rounds - s.current_round - 1, by omega⟩
  unfold game_loop
  rw [hm]
  simp only [loopFuel]
  rw [if_pos ⟨hlt, hact⟩, if_pos hfail]
  simp [after_loop]

/-- C8: when fetching round data fails, the round loop sends the failure
notice, deactivates the session, and exits immediately: no settlement runs
(`settled = false`, and no further action follows the notice), and the
session entry is removed from the room table at the end of the loop. -/
theorem fetch_failure_aborts_loop (cfg : Config) (room : String) (env : Nat → RoundEnv)
    (s : GameSession) (unanswered : Nat) (acc : List Msg)
    (hact : s.active = true) (hlt : s.current_round < s.total_rounds)
    (hfail : (fetch_game_data (env s.current_round).resp).1 = false) :
    game_loop cfg room env s unanswered acc =
      { session := { s with active := false },
        msgs := acc ++ [Msg.text room (fetchFailText (fetch_game_data (env s.current_round).resp).2.1)],
        settled := false,
        removed := true } :=
  loop_fetch_reject cfg room env s unanswered acc hact hlt (Or.inl hfail)

theorem fetch_failure_aborts_loop_witness :
    sess0.active = true ∧
    game_loop cfg0 "g@chatroom" envFetchFail sess0 0 [] =
      { session := { sess0 with active := false },
        msgs := [Msg.text "g@chatroom" (fetchFailText "API请求失败，状态码: 500")],
        settled := false,
        removed := true } := by
  refine ⟨rfl, ?_⟩
  have h := fetch_failure_aborts_loop cfg0 "g@chatroom" envFetchFail sess0 0 []
    (by decide) (by decide) (by decide)
  simpa using h

/-- C5 (counterexample): a well-formed code-200 payload whose `pic` field is
empty makes `fetch_game_data` report success while the returned picture
reference is the empty string, so the function does not "report failure
whenever no picture reference can be obtained": the structured path returns
`data.pic` verbatim without checking it. -/
theorem fetch_success_with_empty_pic :
    (fetch_game_data (.http 200 (.jsonOk (some 200) "" "m" "" "答" "" none))).1 = true ∧
    (fetch_game_data (.http 200 (.jsonOk (some 200) "" "m" "" "答" "" none))).2.2.1 = some "" := by
  constructor <;> decide

/-- C5 (amended): failure is guaranteed only on the fallback path — when
structured parsing fails and no image-extension URL is pattern-extracted
from the raw body, the call reports failure; every success carries a present
(`some`) picture reference, but in the structured code-200 path it may be
the empty string, and the round loop's guard (`not success or not
image_url`) then rejects the round exactly as it rejects a failed fetch. -/
theorem fetch_no_pic_reports_failure (aM : Option String)
    (cfg : Config) (room : String) (env : Nat → RoundEnv) (s : GameSession)
    (unanswered : Nat) (acc : List Msg)
    (hact : s.active = true) (hlt : s.current_round < s.total_rounds)
    (hemptypic : (fetch_game_data (env s.current_round).resp).2.2.1 = some "") :
    (fetch_game_data (.http 200 (.jsonFail none aM))).1 = false ∧
    (∀ r : ApiResponse, (fetch_game_data r).1 = true → ((fetch_game_data r).2.2.1).isSome = true) ∧
    (game_loop cfg room env s unanswered acc).settled = false ∧
    (game_loop cfg room env s unanswered acc).session.active = false := by
  have habort := loop_fetch_reject cfg room env s unanswered acc hact hlt
    (Or.inr (by rw [hemptypic]; rfl))
  refine ⟨rfl, ?_, ?_, ?_⟩
  · intro r hr
    rcases r with e | ⟨status, body⟩
    · simp [fetch_game_data] at hr
    · by_cases hst : status = 200
      · subst hst
        rcases body with ⟨code, rootMsg, dataMsg, pic, dA, rA, mM⟩ | ⟨pM, aM'⟩ | e
        · by_cases hc : code = some 200
          · simp [fetch_game_data, hc]
          · simp [fetch_game_data, hc] at hr
        · rcases pM with _ | p
          · simp [fetch_game_data] at hr
          · simp [fetch_game_data]
        · simp [fetch_game_data] at hr
      · simp [fetch_game_data, hst] at hr
  · rw [habort]
  · rw [habort]

theorem fetch_no_pic_reports_failure_witness :
    (fetch_game_data (.http 200 (.jsonFail none none))).1 = false ∧
    (game_loop cfg0 "g@chatroom" envEmptyPic sess0 0 []).settled = false ∧
    (game_loop cfg0 "g@chatroom" envEmptyPic sess0 0 []).session.active = false := by
  have h := fetch_no_pic_reports_failure none cfg0 "g@chatroom" envEmptyPic sess0 0 []
    (by decide) (by decide) (by decide)
  exact ⟨h.1, h.2.2.1, h.2.2.2⟩

/-- C4: when a round ends with no winner, the loop increments the no-winner
counter (second conjunct: with counter 0, the loop continues into the next
iteration with counter 1); when the counter reaches 2 the loop breaks with
the session still active, so settlement still runs on the scores accrued so
far, and the early-termination notice is appended iff that round was not the
final scheduled round (first conjunct, entered with counter already 1). -/
theorem no_winner_counter_early_end (cfg : Config) (room : String) (env : Nat → RoundEnv)
    (s : GameSession) (acc : List Msg)
    (hact : s.active = true) (hlt : s.current_round < s.total_rounds)
    (hfok : (fetch_game_data (env s.current_round).resp).1 = true)
    (hpic : optStrFalsy (fetch_game_data (env s.current_round).resp).2.2.1 = false)
    (himg : (env s.current_round).imageOk = true)
    (hsnd : (env s.current_round).sendRaises = false)
    (hout : (env s.current_round).outcome = WaitOutcome.timedOut) :
    (game_loop cfg room env s 1 acc =
      { session := { s with rounds := s.rounds ++ [{ fetchedRound (fetch_game_data (env s.current_round).resp) with is_completed := true }] },
        msgs := acc ++ [Msg.text room (roundHeader s.current_round s.total_rounds), Msg.image room, Msg.text room promptText, Msg.text room (timeUpText (fetch_game_data (env s.current_round).resp).2.2.2)] ++ (if s.current_round + 1 ≥ s.total_rounds then [] else [Msg.text room earlyEndText]) ++ end_game_msgs room s.players cfg.base_points cfg.bonus_points cfg.nick cfg.ledgerOk,
        settled := true,
        removed := true }) ∧
    (game_loop cfg room env s 0 acc =
      game_loop cfg room env { s with rounds := s.rounds ++ [{ fetchedRound (fetch_game_data (env s.current_round).resp) with is_completed := true }], current_round := s.current_round + 1 } 1 (acc ++ [Msg.text room (roundHeader s.current_round s.total_rounds), Msg.image room, Msg.text room promptText, Msg.text room (timeUpText (fetch_game_data (env s.current_round).resp).2.2.2)])) := by
  obtain ⟨m, hm⟩ : ∃ m, s.total_rounds - s.current_round = m + 1 :=
    ⟨s.total_rounds - s.current_round - 1, by omega⟩
  have hnofail : ¬((fetch_game_data (env s.current_round).resp).1 = false ∨
      optStrFalsy (fetch_game_data (env s.current_round).resp).2.2.1 = true) := by
    rw [hfok, hpic]
    simp
  have himg' : ¬((env s.current_round).imageOk = false) := by rw [himg]; simp
  have hsnd' : ¬((env s.current_round).sendRaises = true) := by rw [hsnd]; simp
  constructor
  · unfold game_loop
    rw [hm]
    simp only [loopFuel]
    rw [if_pos ⟨hlt, hact⟩, if_neg hnofail, if_neg himg', if_neg hsnd', hout]
    rw [if_pos (by omega : 1 + 1 ≥ 2)]
    by_cases hfin : s.current_round + 1 ≥ s.total_rounds
    · rw [if_pos hfin]
      simp [after_loop, hact, hfin, fetchedRound, timeUpText]
    · rw [if_neg hfin]
      have hfin' : ¬(s.current_round + 1 ≥ s.total_rounds) := hfin
      simp [after_loop, hact, hfin', fetchedRound, timeUpText]
  · unfold game_loop
    rw [hm]
    conv_lhs => simp only [loopFuel]
    rw [if_pos ⟨hlt, hact⟩, if_neg hnofail, if_neg himg', if_neg hsnd', hout]
    rw [if_neg (by omega : ¬(0 + 1 ≥ 2))]
    have hm2 : ({ s with rounds := s.rounds ++ [{ fetchedRound (fetch_game_data (env s.current_round).resp) with is_completed := true }], current_round := s.current_round + 1 } : GameSession).total_rounds - ({ s with rounds := s.rounds ++ [{ fetchedRound (fetch_game_data (env s.current_round).resp) with is_completed := true }], current_round := s.current_round + 1 } : GameSession).current_round = m := by
      simp
      omega
    rw [hm2]
    simp [fetchedRound]

theorem no_winner_counter_early_end_witness :
    (game_loop cfg0 "g@chatroom" envTimeout sess0 1 []).settled = true ∧
    Msg.text "g@chatroom" earlyEndText ∈ (game_loop cfg0 "g@chatroom" envTimeout sess0 1 []).msgs := by
  have h := (no_winner_counter_early_end cfg0 "g@chatroom" envTimeout sess0 []
    (by decide) (by decide) (by decide) (by decide) (by decide) (by decide) (by decide)).1
  constructor
  · rw [h]
  · rw [h]; decide

/-!  ## Hint generator (C6) -/

theorem renderHint_singleton (idiom : List Char) (c0 : Char) :
    renderHint idiom [c0] = idiom.map (fun c => if c = c0 then c else '❓') := by
  unfold renderHint
  congr 1
  funext c
  simp

theorem generate_hint_success (idiom existing : List Char) (pick : Nat)
    (h : (generate_hint idiom existing pick).2 ≠ []) :
    ∃ c, c ∈ idiom ∧ c ∉ existing ∧
      (generate_hint idiom existing pick).1 = existing ++ [c] ∧
      (generate_hint idiom existing pick).2 =
        hintTag ++ renderHint idiom (existing ++ [c]) := by
  by_cases hI : idiom = []
  · exact absurd (by simp [generate_hint, hI]) h
  · by_cases hE : existing = []
    · subst hE
      refine ⟨idiom.get ⟨pick % idiom.length, Nat.mod_lt _ (List.length_pos.mpr hI)⟩,
        List.get_mem _ _ _, by simp, ?_, ?_⟩
      · simp only [generate_hint, dif_neg hI, if_pos rfl, if_true]
      · simp only [generate_hint, dif_neg hI, if_pos rfl, if_true, List.nil_append, renderHint_singleton]
    · by_cases hA : idiom.filter (fun c => decide (c ∉ existing)) = []
      · refine absurd ?_ h
        simp only [generate_hint, dif_neg hI, if_neg hE, dif_pos hA]
      · have hmem : (idiom.filter (fun c => decide (c ∉ existing))).get
            ⟨pick % (idiom.filter (fun c => decide (c ∉ existing))).length,
              Nat.mod_lt _ (List.length_pos.mpr hA)⟩ ∈
            idiom.filter (fun c => decide (c ∉ existing)) := List.get_mem _ _ _
        have hmem2 := List.mem_filter.mp hmem
        refine ⟨_, hmem2.1, of_decide_eq_true hmem2.2, ?_, ?_⟩
        · simp only [generate_hint, dif_neg hI, if_neg hE, dif_neg hA]
        · simp only [generate_hint, dif_neg hI, if_neg hE, dif_neg hA, renderHint]


theorem generate_hint_covers_or_extends (idiom existing : List Char) (pick : Nat) :
    ((generate_hint idiom existing pick).1 = existing ∧ ∀ c ∈ idiom, c ∈ existing) ∨
    (∃ c, c ∈ idiom ∧ c ∉ existing ∧ (generate_hint idiom existing pick).1 = existing ++ [c]) := by
  by_cases hI : idiom = []
  · left
    refine ⟨by simp [generate_hint, hI], ?_⟩
    intro c hc
    rw [hI] at hc
    simp at hc
  · by_cases hE : existing = []
    · right
      subst hE
      exact ⟨idiom.get ⟨pick % idiom.length, Nat.mod_lt _ (List.length_pos.mpr hI)⟩,
        List.get_mem _ _ _, by simp,
        by simp only [generate_hint, dif_neg hI, if_pos rfl, if_true]⟩
    · by_cases hA : idiom.filter (fun c => decide (c ∉ existing)) = []
      · left
        refine ⟨by simp only [generate_hint, dif_neg hI, if_neg hE, dif_pos hA], ?_⟩
        intro c hc
        by_contra hnc
        have : c ∈ idiom.filter (fun c => decide (c ∉ existing)) :=
          List.mem_filter.mpr ⟨hc, decide_eq_true hnc⟩
        rw [hA] at this
        simp at this
      · right
        have hmem : (idiom.filter (fun c => decide (c ∉ existing))).get
            ⟨pick % (idiom.filter (fun c => decide (c ∉ existing))).length,
              Nat.mod_lt _ (List.length_pos.mpr hA)⟩ ∈
            idiom.filter (fun c => decide (c ∉ existing)) := List.get_mem _ _ _
        have hmem2 := List.mem_filter.mp hmem
        exact ⟨_, hmem2.1, of_decide_eq_true hmem2.2,
          by simp only [generate_hint, dif_neg hI, if_neg hE, dif_neg hA]⟩

theorem revealIter_invariant (idiom : List Char) (picks : Nat → Nat) (k : Nat) :
    (revealIter idiom picks k).Nodup ∧ (∀ c ∈ revealIter idiom picks k, c ∈ idiom) ∧
    (revealIter idiom picks k).length = min k idiom.dedup.length := by
  induction k with
  | zero => simp [revealIter]
  | succ k ih =>
    obtain ⟨hnd, hsub, hlen⟩ := ih
    have hd : idiom.toFinset.card = idiom.dedup.length := List.card_toFinset idiom
    rcases generate_hint_covers_or_extends idiom (revealIter idiom picks k) (picks k) with
      ⟨heq, hcov⟩ | ⟨c, hcmem, hcnot, heq⟩
    · have hsubF : idiom.toFinset ⊆ (revealIter idiom picks k).toFinset := by
        intro x hx
        exact List.mem_toFinset.mpr (hcov x (List.mem_toFinset.mp hx))
      have hcard : idiom.toFinset.card ≤ (revealIter idiom picks k).toFinset.card :=
        Finset.card_le_card hsubF
      have hlen2 : (revealIter idiom picks k).toFinset.card = (revealIter idiom picks k).length :=
        List.toFinset_card_of_nodup hnd
      have hfull : idiom.dedup.length ≤ min k idiom.dedup.length := by omega
      simp only [revealIter, heq]
      exact ⟨hnd, hsub, by omega⟩
    · have hsubF : (revealIter idiom picks k).toFinset ⊆ idiom.toFinset := by
        intro x hx
        exact List.mem_toFinset.mpr (hsub x (List.mem_toFinset.mp hx))
      have hlt : (revealIter idiom picks k).toFinset.card < idiom.toFinset.card :=
        Finset.card_lt_card ((Finset.ssubset_iff_of_subset hsubF).mpr
          ⟨c, List.mem_toFinset.mpr hcmem, fun hcf => hcnot (List.mem_toFinset.mp hcf)⟩)
      have hlen2 : (revealIter idiom picks k).toFinset.card = (revealIter idiom picks k).length :=
        List.toFinset_card_of_nodup hnd
      have hnd' : ((revealIter idiom picks k) ++ [c]).Nodup := by
        simp [List.nodup_append, hnd, hcnot]
      have hsub' : ∀ x ∈ (revealIter idiom picks k) ++ [c], x ∈ idiom := by
        intro x hx
        rcases List.mem_append.mp hx with hx | hx
        · exact hsub x hx
        · rw [List.mem_singleton.mp hx]
          exact hcmem
      simp only [revealIter, heq]
      refine ⟨hnd', hsub', ?_⟩
      rw [List.length_append]
      simp only [List.length_singleton]
      omega


/-- C6: every successful hint call reveals exactly one new distinct
character of the idiom (the returned revealed list is the old one plus one
member of the idiom not previously revealed) and returns the "提示: " marker
followed by the rendering whose length is exactly the idiom's length, with
every position whose character is in the revealed set shown and all others
the placeholder glyph; chaining k calls from an empty revealed set yields a
duplicate-free subset of the idiom's characters of size
min k (number of distinct characters) — exactly k until duplicates exhaust
uniqueness. -/
theorem hint_generator_spec :
    (∀ (idiom existing : List Char) (pick : Nat),
      (generate_hint idiom existing pick).2 ≠ [] →
      ∃ c, c ∈ idiom ∧ c ∉ existing ∧
        (generate_hint idiom existing pick).1 = existing ++ [c] ∧
        (generate_hint idiom existing pick).2 =
          hintTag ++ renderHint idiom (existing ++ [c])) ∧
    (∀ (idiom rev : List Char),
      (renderHint idiom rev).length = idiom.length ∧
      ∀ i : Nat, i < idiom.length →
        (renderHint idiom rev).getD i ' ' =
          if idiom.getD i ' ' ∈ rev then idiom.getD i ' ' else '❓') ∧
    (∀ (idiom : List Char) (picks : Nat → Nat) (k : Nat),
      (revealIter idiom picks k).Nodup ∧
      (∀ c ∈ revealIter idiom picks k, c ∈ idiom) ∧
      (revealIter idiom picks k).length = min k idiom.dedup.length) := by
  refine ⟨generate_hint_success, ?_, revealIter_invariant⟩
  intro idiom rev
  refine ⟨by simp [renderHint], ?_⟩
  intro i hi
  have h1 : idiom[i]? = some (idiom.get ⟨i, hi⟩) := List.getElem?_eq_getElem hi
  simp [renderHint, List.getD_eq_getElem?_getD, List.getElem?_map, h1]

theorem hint_generator_spec_witness :
    (generate_hint ['天', '地'] [] 0).2 ≠ [] ∧
    (∃ c, c ∈ ['天', '地'] ∧ c ∉ ([] : List Char) ∧
      (generate_hint ['天', '地'] [] 0).1 = [] ++ [c] ∧
      (generate_hint ['天', '地'] [] 0).2 = hintTag ++ renderHint ['天', '地'] ([] ++ [c])) ∧
    (1 : Nat) < (['天', '地'] : List Char).length ∧
    (renderHint ['天', '地'] ['天']).getD 1 ' ' =
      (if (['天', '地'] : List Char).getD 1 ' ' ∈ (['天'] : List Char)
        then (['天', '地'] : List Char).getD 1 ' ' else '❓') :=
  ⟨by decide, hint_generator_spec.1 ['天', '地'] [] 0 (by decide), by decide,
    (hint_generator_spec.2.1 ['天', '地'] ['天']).2 1 (by decide)⟩
